import Mathlib

/-!
Verification of the voice-to-task pipeline in
`scripts/process_icloud_recording.py`.

The Python source is shallowly embedded: every detector of the intent
extraction engine, the command builder `create_omnifocus_url`, and the
stateful parts of the pipeline (transcript de-duplication cache, file lock,
restore-on-failure path of `main`) become executable Lean functions.
Python regular expressions are modelled by a small backtracking matcher
(`mtch`) over `List Char`; each pattern used by the source is transcribed
into a regex value, keeping Python's leftmost-match rule and the
greedy/lazy priorities of the original patterns.  Fuel makes the matcher
structurally recursive; the fuel supplied by `matchHere` is far larger
than the maximal backtracking depth any of the transcribed patterns can
reach on the given input, so it never changes the result.
-/

/-! ## Basic character and string helpers (Python `str` operations) -/

/-- Python `\s` / `str.strip()` whitespace, restricted to the ASCII range the
transcripts use: space, tab, newline, carriage return, vertical tab, form feed. -/
def isPySpace (c : Char) : Bool :=
  c == ' ' || c == '\t' || c == '\n' || c == '\r' ||
    c == Char.ofNat 11 || c == Char.ofNat 12

/-- `str.strip()`. -/
def stripWs (s : List Char) : List Char :=
  ((s.dropWhile isPySpace).reverse.dropWhile isPySpace).reverse

/-- Characters stripped by `strip('.,!?')` in `is_grocery_list`. -/
def isPunc (c : Char) : Bool :=
  c == '.' || c == ',' || c == '!' || c == '?'

/-- `str.strip('.,!?')`. -/
def stripPunc (s : List Char) : List Char :=
  ((s.dropWhile isPunc).reverse.dropWhile isPunc).reverse

/-- `str.lower()` (ASCII). -/
def lowerL (s : List Char) : List Char := s.map Char.toLower

/-- `str.split()` — split on whitespace runs, dropping empty fields. -/
def splitWsAux : List Char → List Char → List (List Char)
  | [], acc => if acc.isEmpty then [] else [acc.reverse]
  | c :: t, acc =>
    if isPySpace c then
      if acc.isEmpty then splitWsAux t [] else acc.reverse :: splitWsAux t []
    else splitWsAux t (c :: acc)

def splitWs (s : List Char) : List (List Char) := splitWsAux s []

/-- `str.split(ch)` — keeps empty fields, as Python does with an explicit separator. -/
def splitOnC (ch : Char) : List Char → List Char → List (List Char)
  | [], acc => [acc.reverse]
  | c :: t, acc =>
    if c == ch then acc.reverse :: splitOnC ch t [] else splitOnC ch t (c :: acc)

/-- Literal containment test: does `pat` occur as a contiguous substring of `s`? -/
def containsSub (pat : List Char) : List Char → Bool
  | [] => pat.isEmpty
  | c :: t => pat.isPrefixOf (c :: t) || containsSub pat t

/-- Python `str.title()`: the first cased character of every run of cased
characters is uppercased, the rest lowered; letters are the cased characters. -/
def titleAux : List Char → Bool → List Char
  | [], _ => []
  | c :: t, prevCased =>
    if c.isAlpha then (if prevCased then c.toLower else c.toUpper) :: titleAux t true
    else c :: titleAux t false

def pyTitle (s : List Char) : List Char := titleAux s false

/-- Value of a (non-empty) string of decimal digits, Python `int(...)`. -/
def natOfDigits (s : List Char) : Nat :=
  s.foldl (fun a c => 10 * a + (c.toNat - 48)) 0

/-- Python `sep.join(xs)`. -/
def joinSep (sep : String) : List String → String
  | [] => ""
  | [a] => a
  | a :: rest => a ++ sep ++ joinSep sep rest

/-! ## A small backtracking regex matcher

Continuation-passing matcher with fuel.  Alternation tries its left branch
first, `rep`/`opt` carry a greediness flag, and `look` is a zero-width
assertion on the remaining input (used for `$` and lookaheads).  All these
choices reproduce Python `re` backtracking priority.  The `rep` case insists
that each iteration consume input, which is exact for every pattern
transcribed below (all repeated subpatterns consume at least one character). -/

abbrev Caps := List (Nat × List Char)

inductive RE where
  | eps : RE
  | cls : (Char → Bool) → RE
  | seq : RE → RE → RE
  | alt : RE → RE → RE
  | rep : Bool → RE → RE
  | opt : Bool → RE → RE
  | grp : Nat → RE → RE
  | look : (List Char → Bool) → RE

def mtch : Nat → RE → List Char → Caps →
    (List Char → Caps → Option (List Char × Caps)) → Option (List Char × Caps)
  | 0, _, _, _, _ => none
  | _ + 1, .eps, s, cs, k => k s cs
  | _ + 1, .cls p, s, cs, k =>
    match s with
    | [] => none
    | c :: t => if p c then k t cs else none
  | f + 1, .seq a b, s, cs, k => mtch f a s cs (fun s1 c1 => mtch f b s1 c1 k)
  | f + 1, .alt a b, s, cs, k =>
    match mtch f a s cs k with
    | some r => some r
    | none => mtch f b s cs k
  | f + 1, .rep g a, s, cs, k =>
    let more := mtch f a s cs (fun s1 c1 =>
      if s1.length < s.length then mtch f (.rep g a) s1 c1 k else none)
    if g then
      match more with
      | some r => some r
      | none => k s cs
    else
      match k s cs with
      | some r => some r
      | none => more
  | f + 1, .opt g a, s, cs, k =>
    if g then
      match mtch f a s cs k with
      | some r => some r
      | none => k s cs
    else
      match k s cs with
      | some r => some r
      | none => mtch f a s cs k
  | f + 1, .grp n a, s, cs, k =>
    mtch f a s cs (fun s1 c1 => k s1 ((n, s.take (s.length - s1.length)) :: c1))
  | _ + 1, .look p, s, cs, k => if p s then k s cs else none

/-- Match `r` anchored at the start of `s`; returns the matched length and
the captured groups. -/
def matchHere (r : RE) (s : List Char) : Option (Nat × Caps) :=
  match mtch ((s.length + 4) * 256) r s [] (fun s1 cs => some (s1, cs)) with
  | some (s1, cs) => some (s.length - s1.length, cs)
  | none => none

/-- `re.search`: leftmost match; returns (start, length, captures). -/
def searchAux (r : RE) : List Char → Nat → Option (Nat × Nat × Caps)
  | s, i =>
    match matchHere r s with
    | some (len, cs) => some (i, len, cs)
    | none =>
      match s with
      | [] => none
      | _ :: t => searchAux r t (i + 1)

def searchRe (r : RE) (s : List Char) : Option (Nat × Nat × Caps) :=
  searchAux r s 0

/-- `re.finditer`: all non-overlapping matches, scanning left to right. -/
def findAllAux (r : RE) : Nat → List Char → Nat → List (Nat × Nat × Caps)
  | 0, _, _ => []
  | f + 1, s, base =>
    match searchAux r s 0 with
    | none => []
    | some (i, len, cs) =>
      let step := i + max len 1
      (base + i, len, cs) :: findAllAux r f (s.drop step) (base + step)

def findAll (r : RE) (s : List Char) : List (Nat × Nat × Caps) :=
  findAllAux r (s.length + 1) s 0

/-- `re.sub(r, repl, s)` with a fixed replacement string. -/
def subAllAux (r : RE) (repl : List Char) : Nat → List Char → List Char
  | 0, s => s
  | f + 1, s =>
    match searchAux r s 0 with
    | none => s
    | some (i, len, _) =>
      if len = 0 then
        s.take i ++ repl ++
          (match s.drop i with
           | [] => []
           | c :: t => c :: subAllAux r repl f t)
      else s.take i ++ repl ++ subAllAux r repl f (s.drop (i + len))

def subAll (r : RE) (repl : List Char) (s : List Char) : List Char :=
  subAllAux r repl (s.length + 1) s

/-- Captured group `n` (Python `match.group(n)`, `none` = group did not take part). -/
def capGet (cs : Caps) (n : Nat) : Option (List Char) :=
  (cs.find? (fun p => p.1 = n)).map (·.2)

def cap1 (m : Nat × Nat × Caps) : List Char :=
  (capGet m.2.2 1).getD []

/-! ### Pattern builders -/

def rchr (c : Char) : RE := .cls (fun x => x == c)

/-- Literal string. -/
def rlit (w : String) : RE := w.data.foldr (fun c r => .seq (rchr c) r) .eps

/-- Case-insensitive literal (pattern written in lowercase). -/
def rilit (w : String) : RE :=
  w.data.foldr (fun c r => .seq (.cls (fun x => x.toLower == c)) r) .eps

def raltL : List RE → RE
  | [] => .cls (fun _ => false)
  | [r] => r
  | r :: rs => .alt r (raltL rs)

def rcat : List RE → RE
  | [] => .eps
  | [r] => r
  | r :: rs => .seq r (rcat rs)

def rws : RE := .cls isPySpace
def rdig : RE := .cls Char.isDigit
def rplus (r : RE) : RE := .seq r (.rep true r)
def rplusL (r : RE) : RE := .seq r (.rep false r)
def ropt (r : RE) : RE := .opt true r

/-- `["\']` -/
def isQuoteChar (c : Char) : Bool := c == '"' || c == Char.ofNat 39

def rquote : RE := .cls isQuoteChar
/-- `[^"\']` -/
def rnq : RE := .cls (fun c => !isQuoteChar c)
/-- `.` (any character but newline). -/
def rdot : RE := .cls (fun c => c != '\n')
/-- `[^\s]` -/
def rnws : RE := .cls (fun c => !isPySpace c)
/-- `$` (end of input). -/
def rEnd : RE := .look (fun s => s.isEmpty)

/-! ## `extract_task_name_and_note` -/

/-- First pattern of a list that `re.search` finds anywhere in `s` wins. -/
def firstSearch : List RE → List Char → Option (Nat × Nat × Caps)
  | [], _ => none
  | p :: ps, s =>
    match searchRe p s with
    | some m => some m
    | none => firstSearch ps s

/-- The note-cue patterns of `extract_task_name_and_note`, in source order
(matched with `re.IGNORECASE` against the raw utterance). -/
def notePatterns : List RE :=
  [ rcat [rilit "with note", ropt (rchr ':'), .rep true rws, .grp 1 (.rep true rdot)]
  , rcat [rilit "add note", ropt (rchr ':'), .rep true rws, .grp 1 (.rep true rdot)]
  , rcat [rilit "include note", ropt (rchr ':'), .rep true rws, .grp 1 (.rep true rdot)]
  , rcat [rilit "note", ropt (.cls (fun x => x.toLower == 's')), ropt (rchr ':'),
          .rep true rws, .grp 1 (.rep true rdot)]
  , rcat [rilit "list", ropt (rchr ':'), .rep true rws, .grp 1 (.rep true rdot)]
  , rcat [ropt (rchr '.'), .rep true rws, .alt (rilit "bullet") (rilit "point"),
          .rep true rws, .grp 1 (.rep true rdot)]
  ]

def noteSearch (s : List Char) : Option (Nat × Nat × Caps) :=
  firstSearch notePatterns s

/-- `re.sub(r'[,.]$', '', name)`: drop one trailing comma or period. -/
def dropTrailPunct (s : List Char) : List Char :=
  match s.reverse with
  | c :: t => if c == ',' || c == '.' then t.reverse else s
  | [] => s

/-- Split the utterance into task name and note content.  The part of the text
before the first matching cue (`re.split(pattern, text, maxsplit=1)[0]`),
stripped and with one trailing `,`/`.` removed, is the name; the cue's
captured group, stripped, is the note.  No cue: the whole text, stripped. -/
def extract_task_name_and_note (text : String) : String × Option String :=
  match noteSearch text.data with
  | some (i, _, cs) =>
    (String.mk (dropTrailPunct (stripWs (text.data.take i))),
     some (String.mk (stripWs ((capGet cs 1).getD []))))
  | none => (String.mk (stripWs text.data), none)

/-! ## Calendar and `parse_date_time` -/

def pad2 (n : Nat) : String := if n < 10 then "0" ++ toString n else toString n

def pad4 (n : Nat) : String :=
  if n < 10 then "000" ++ toString n
  else if n < 100 then "00" ++ toString n
  else if n < 1000 then "0" ++ toString n
  else toString n

/-- `strftime("%Y-%m-%d")` of the day `z0` days after 1970-01-01
(civil-from-days conversion of the proleptic Gregorian calendar). -/
def dateStr (z0 : Nat) : String :=
  let z := z0 + 719468
  let era := z / 146097
  let doe := z % 146097
  let yoe := (doe - doe / 1460 + doe / 36524 - doe / 146096) / 365
  let y0 := yoe + era * 400
  let doy := doe - (365 * yoe + yoe / 4 - yoe / 100)
  let mp := (5 * doy + 2) / 153
  let d := doy - (153 * mp + 2) / 5 + 1
  let m := if mp < 10 then mp + 3 else mp - 9
  let y := if m ≤ 2 then y0 + 1 else y0
  pad4 y ++ "-" ++ pad2 m ++ "-" ++ pad2 d

/-- `datetime.weekday()` (Monday = 0) of day `z` (1970-01-01 was a Thursday). -/
def weekdayOf (z : Nat) : Nat := (z + 3) % 7

/-- `%I:%M%p` lowered: 12-hour clock rendering of hour-of-day `h24` / minute. -/
def fmtClock (h24 m : Nat) : String :=
  let h12 := if h24 % 12 = 0 then 12 else h24 % 12
  pad2 h12 ++ ":" ++ pad2 m ++ (if h24 < 12 then "am" else "pm")

/-- `dateutil.parser.parse` on the time tokens the three time patterns can
capture, followed by `strftime("%I:%M%p").lower()`.  Token shapes: one or two
digits, an optional `:MM`, optional spaces, an optional `am`/`pm`.  dateutil
reads a bare 1–31 number as a day of the month (midnight); an hour above 12
with `am`/`pm`, an hour above 23, a minute above 59 or a bare number outside
1–31 raise `ValueError`, modelled as `none`. -/
def parseTimeTok (tok0 : List Char) : Option String :=
  let tok := stripWs tok0
  let core :=
    if "am".data.isSuffixOf tok || "pm".data.isSuffixOf tok then
      stripWs (tok.take (tok.length - 2))
    else tok
  let ampm : Option Bool :=
    if "am".data.isSuffixOf tok then some false
    else if "pm".data.isSuffixOf tok then some true
    else none
  match splitOnC ':' core [] with
  | [h] =>
    let hv := natOfDigits h
    match ampm with
    | none => if 1 ≤ hv ∧ hv ≤ 31 then some (fmtClock 0 0) else none
    | some pm =>
      if hv ≤ 12 then some (fmtClock (if pm then hv % 12 + 12 else hv % 12) 0) else none
  | [h, m] =>
    let hv := natOfDigits h
    let mv := natOfDigits m
    if mv ≤ 59 then
      match ampm with
      | none => if hv ≤ 23 then some (fmtClock hv mv) else none
      | some pm =>
        if hv ≤ 12 then some (fmtClock (if pm then hv % 12 + 12 else hv % 12) mv) else none
    else none
  | _ => none

/-- `\d{1,2}(?::\d{2})?\s*(?:am|pm)?` -/
def timeTokRe : RE :=
  rcat [rdig, ropt rdig, ropt (rcat [rchr ':', rdig, rdig]), .rep true rws,
        ropt (.alt (rlit "am") (rlit "pm"))]

def timePat1 : RE := rcat [rlit "at ", .grp 1 timeTokRe]
def timePat2 : RE :=
  rcat [rlit "at ", .grp 1 (rcat [rdig, ropt rdig]), rlit " o", rchr (Char.ofNat 39),
        rlit "clock"]
def timePat3 : RE :=
  .grp 1 (rcat [rdig, ropt rdig, ropt (rcat [rchr ':', rdig, rdig]), .rep true rws,
                .alt (rlit "am") (rlit "pm")])

/-- The time-pattern loop: a pattern that matches but whose token fails to
parse (`ValueError`) falls through to the next pattern, as the source's
`try`/`except ValueError: continue` does. -/
def timeLoop : List RE → List Char → Option String
  | [], _ => none
  | p :: ps, s =>
    match searchRe p s with
    | some m =>
      match parseTimeTok (cap1 m) with
      | some tstr => some tstr
      | none => timeLoop ps s
    | none => timeLoop ps s

def weekdayNames : List String :=
  ["monday", "tuesday", "wednesday", "thursday", "friday", "saturday", "sunday"]

/-- Does `kw` followed by the `i`-th weekday name start at the head of `s`?
Tried for every `i`; at most one can match because no weekday name is a
prefix of another. -/
def matchWeekdayHere (kw : String) (s : List Char) : Option Nat :=
  (List.range 7).find? (fun i => (kw.data ++ (weekdayNames.getD i "").data).isPrefixOf s)

/-- Leftmost occurrence of `kw` followed by a weekday name; returns the
weekday index, which is also `dateutil`'s `.weekday()` of the parsed name. -/
def searchWeekday (kw : String) : List Char → Option Nat
  | [] => none
  | c :: t =>
    match matchWeekdayHere kw (c :: t) with
    | some i => some i
    | none => searchWeekday kw t

inductive DayExpr where
  | today : DayExpr
  | tomorrow : DayExpr
  | weekday : Nat → DayExpr
deriving DecidableEq, Repr

/-- The day-pattern loop of `parse_date_time`, in source order: `(today)`,
`(tomorrow)`, `next <weekday>`, `on <weekday>`, `this <weekday>`.  Each is a
pure literal search, so the first pattern occurring anywhere in the text wins. -/
def matchDay (s : List Char) : Option DayExpr :=
  if containsSub "today".data s then some .today
  else if containsSub "tomorrow".data s then some .tomorrow
  else
    match searchWeekday "next " s with
    | some w => some (.weekday w)
    | none =>
      match searchWeekday "on " s with
      | some w => some (.weekday w)
      | none => (searchWeekday "this " s).map .weekday

/-- Day number resolved for a day expression: `days_ahead = target - current`,
moved to the following week when zero or negative. -/
def resolveDayNum (today : Nat) : DayExpr → Nat
  | .today => today
  | .tomorrow => today + 1
  | .weekday w =>
    let cur := weekdayOf today
    today + (if w ≤ cur then w + 7 - cur else w - cur)

/-- Every defer-cue pattern reduces to a literal containment test: all its
optional tails can match the empty string. -/
def isDeferRequest (s : List Char) : Bool :=
  containsSub "defer ".data s || containsSub "start ".data s ||
    containsSub "begin ".data s || containsSub "wait ".data s

/-- `parse_date_time(text)` with `datetime.now()`'s date abstracted as the day
number `today`.  Returns `(defer_date, due_date)`. -/
def parse_date_time (text : String) (today : Nat) : Option String × Option String :=
  let t := lowerL text.data
  let deferReq := isDeferRequest t
  let timeStr := timeLoop [timePat1, timePat2, timePat3] t
  let dateS := (matchDay t).map (fun e => dateStr (resolveDayNum today e))
  let fdt : Option String :=
    match dateS, timeStr with
    | some d, some tm => some (d ++ " " ++ tm)
    | some d, none => some d
    | none, some tm => some (dateStr today ++ " " ++ tm)
    | none, none => none
  if deferReq then (fdt, none) else (none, fdt)

/-! ## Attribute detectors -/

/-- The four `detect_project` patterns, in source order. -/
def projPatterns : List RE :=
  [ rcat [rlit "in project ", ropt (rlit "called "), ropt rquote, .grp 1 (rplus rnq),
          ropt rquote]
  , rcat [rlit "to project ", ropt rquote, .grp 1 (rplus rnq), ropt rquote]
  , rcat [rlit "under ", ropt rquote, .grp 1 (rplus rnq), ropt rquote, rlit " project"]
  , rcat [rlit "@project(", .grp 1 (rplus (.cls (fun c => c != ')'))), rchr ')']
  ]

def detect_project (text : String) : Option String :=
  (firstSearch projPatterns (lowerL text.data)).map
    (fun m => String.mk (stripWs (cap1 m)))

def parallelKeywords : List String :=
  ["parallel tasks", "parallel actions", "can be done in parallel",
   "can be done simultaneously", "no specific order"]

def detect_parallel (text : String) : Bool :=
  parallelKeywords.any (fun kw => containsSub kw.data (lowerL text.data))

def flagKeywords : List String :=
  ["urgent", "important", "priority", "flag", "flagged", "high priority", "critical"]

def detect_flag (text : String) : Bool :=
  flagKeywords.any (fun kw => containsSub kw.data (lowerL text.data))

/-! ### `parse_duration` -/

def hourWord : RE := .alt (rlit "hour") (rlit "hr")
def minWord : RE := .alt (rlit "minute") (rlit "min")
def cueWord : RE :=
  raltL [rlit "takes", rlit "duration", rlit "estimate", rlit "estimated",
         rlit "about", rlit "around"]

/-- `(\d+)\s*(?:hour|hr)s?\s*(?:and\s*)?(\d+)?\s*(?:minute|min)s?` -/
def durBodyHM : RE :=
  rcat [.grp 1 (rplus rdig), .rep true rws, hourWord, ropt (rchr 's'), .rep true rws,
        ropt (rcat [rlit "and", .rep true rws]), ropt (.grp 2 (rplus rdig)),
        .rep true rws, minWord, ropt (rchr 's')]

/-- `(\d+)\s*(?:minute|min)s?` -/
def durBodyM : RE := rcat [.grp 1 (rplus rdig), .rep true rws, minWord, ropt (rchr 's')]

/-- `(\d+)\s*(?:hour|hr)s?` -/
def durBodyH : RE := rcat [.grp 1 (rplus rdig), .rep true rws, hourWord, ropt (rchr 's')]

def durPat4 : RE := rcat [cueWord, rplus rws, durBodyHM]
def durPat5 : RE := rcat [cueWord, rplus rws, durBodyM]

def fmtHM (h m : Nat) : String := toString h ++ "h" ++ toString m ++ "m"
def fmtM (m : Nat) : String := toString m ++ "m"

/-- Formatter of the hours-and-minutes patterns:
`f"{int(h)}h{int(m) if m else '0'}m"`. -/
def durFmtHM (cs : Caps) : String :=
  let h := natOfDigits ((capGet cs 1).getD [])
  match capGet cs 2 with
  | some m => fmtHM h (natOfDigits m)
  | none => fmtHM h 0

/-- `parse_duration`: ordered pattern list, first pattern with a match wins. -/
def parse_duration (text : String) : Option String :=
  let t := lowerL text.data
  match searchRe durBodyHM t with
  | some m => some (durFmtHM m.2.2)
  | none =>
  match searchRe durBodyM t with
  | some m => some (fmtM (natOfDigits (cap1 m)))
  | none =>
  match searchRe durBodyH t with
  | some m => some (fmtHM (natOfDigits (cap1 m)) 0)
  | none =>
  match searchRe durPat4 t with
  | some m => some (durFmtHM m.2.2)
  | none => (searchRe durPat5 t).map (fun m => fmtM (natOfDigits (cap1 m)))

/-! ### `detect_folder` -/

def KNOWN_FOLDERS : List (String × String) :=
  [("personal", "Personal"), ("work", "Work"), ("home", "Home"),
   ("family", "Family"), ("health", "Health"), ("finance", "Finance")]

/-- `(?:in|to|into|under|for)` in source alternation order. -/
def folderHeads : RE :=
  raltL [rlit "in", rlit "to", rlit "into", rlit "under", rlit "for"]

/-- `in (?:the )?([^"\']+?) folder` — used both anchored (`^…`, pattern 1)
and unanchored (pattern 2). -/
def folderPatIn : RE :=
  rcat [rlit "in ", ropt (rlit "the "), .grp 1 (rplusL rnq), rlit " folder"]

/-- `(?:in|to|into|under|for) (?:the )?(?:folder )?["\']?([^"\']+?)["\']? folder` -/
def folderPat3 : RE :=
  rcat [folderHeads, rchr ' ', ropt (rlit "the "), ropt (rlit "folder "), ropt rquote,
        .grp 1 (rplusL rnq), ropt rquote, rlit " folder"]

/-- `(?:in|to|into|under|for) (?:the )?([^"\']+?) folder` -/
def folderPat4 : RE :=
  rcat [folderHeads, rchr ' ', ropt (rlit "the "), .grp 1 (rplusL rnq), rlit " folder"]

/-- `folder ["\']?([^"\']+?)["\']?` -/
def folderPat5 : RE := rcat [rlit "folder ", ropt rquote, .grp 1 (rplusL rnq), ropt rquote]

/-- `@folder\(([^)]+)\)` -/
def folderPat6 : RE :=
  rcat [rlit "@folder(", .grp 1 (rplus (.cls (fun c => c != ')'))), rchr ')']

/-- The explicit-pattern phase of `detect_folder`: the anchored pattern first,
then the unanchored ones in source order. -/
def folderExplicit (t : List Char) : Option (List Char) :=
  match matchHere folderPatIn t with
  | some (_, cs) => some ((capGet cs 1).getD [])
  | none =>
  match searchRe folderPatIn t with
  | some m => some (cap1 m)
  | none =>
  match searchRe folderPat3 t with
  | some m => some (cap1 m)
  | none =>
  match searchRe folderPat4 t with
  | some m => some (cap1 m)
  | none =>
  match searchRe folderPat5 t with
  | some m => some (cap1 m)
  | none => (searchRe folderPat6 t).map cap1

/-- `detect_folder`: explicit patterns, canonicalized against `KNOWN_FOLDERS`
(else title-cased); otherwise the first known folder key that occurs as a
whole word of the text. -/
def detect_folder (text : String) : Option String :=
  let t := lowerL text.data
  match folderExplicit t with
  | some cap =>
    let name := stripWs cap
    let lowered := String.mk (lowerL name)
    match KNOWN_FOLDERS.find? (fun kv => kv.1 == lowered) with
    | some kv => some kv.2
    | none => some (String.mk (pyTitle name))
  | none =>
    (KNOWN_FOLDERS.find? (fun kv => (splitWs t).contains kv.1.data)).map (·.2)

/-! ### Status, dependencies, location, energy, repeat -/

structure TaskStatus where
  completed : Bool
  reveal : Bool
  sequential : Bool
deriving DecidableEq, Repr

def detect_task_status (text : String) : TaskStatus :=
  let t := lowerL text.data
  { completed :=
      ["done", "completed", "finished", "complete"].any (fun w => containsSub w.data t)
  , reveal :=
      !(["hide", "don't show", "don't reveal"].any (fun w => containsSub w.data t))
  , sequential :=
      ["sequential", "in order", "one after another", "step by step"].any
        (fun w => containsSub w.data t) }

/-- The five `detect_dependencies` patterns, in source order. -/
def depPatterns : List RE :=
  [ rcat [rlit "after ", raltL [rlit "completing", rlit "finishing", rlit "doing"],
          rchr ' ', ropt rquote, .grp 1 (rplus rnq), ropt rquote]
  , rcat [rlit "depends on ", ropt rquote, .grp 1 (rplus rnq), ropt rquote]
  , rcat [rlit "requires ", ropt rquote, .grp 1 (rplus rnq), ropt rquote]
  , rcat [rlit "needs ", ropt rquote, .grp 1 (rplus rnq), ropt rquote]
  , rcat [rlit "@depends(", .grp 1 (rplus (.cls (fun c => c != ')'))), rchr ')']
  ]

/-- `detect_dependencies`: for each pattern in order, append the trimmed
captured group of every match (`re.finditer`) to the list. -/
def detect_dependencies (text : String) : List String :=
  depPatterns.foldl
    (fun acc p =>
      acc ++ (findAll p (lowerL text.data)).map (fun m => String.mk (stripWs (cap1 m))))
    []

def locPatterns : List RE :=
  [ rcat [rlit "at ", ropt (rlit "the "), ropt rquote, .grp 1 (rplus rnq), ropt rquote]
  , rcat [rlit "in ", ropt (rlit "the "), ropt rquote, .grp 1 (rplus rnq), ropt rquote]
  , rcat [rlit "@location(", .grp 1 (rplus (.cls (fun c => c != ')'))), rchr ')']
  ]

def commonWords : List String :=
  ["the", "a", "an", "this", "that", "there", "here", "it", "them"]

/-- Pattern loop of `detect_location`: a match whose capture fails the
filler-word filter falls through to the next pattern. -/
def locLoop : List RE → List Char → Option String
  | [], _ => none
  | p :: ps, t =>
    match searchRe p t with
    | some m =>
      let loc := stripWs (cap1 m)
      let ws := splitWs loc
      if !loc.isEmpty && decide (1 < ws.length) &&
          !(ws.all (fun w => commonWords.contains (String.mk w))) then
        some (String.mk loc)
      else locLoop ps t
    | none => locLoop ps t

def detect_location (text : String) : Option String :=
  locLoop locPatterns (lowerL text.data)

def energyTable : List (String × List String) :=
  [("low", ["low energy", "easy", "simple", "quick", "light"]),
   ("medium", ["medium energy", "moderate", "normal"]),
   ("high", ["high energy", "intensive", "complex", "difficult", "challenging"])]

def detect_energy_level (text : String) : Option String :=
  let t := lowerL text.data
  (energyTable.find? (fun lv => lv.2.any (fun kw => containsSub kw.data t))).map (·.1)

/-- `every (\d+) <unit>s?` -/
def repNum (unit : String) : RE :=
  rcat [rlit "every ", .grp 1 (rplus rdig), rchr ' ', rlit unit, ropt (rchr 's')]

/-- `parse_repeat_pattern`: the fixed phrase table in source (insertion)
order; the numeric formatters interpolate the captured digit string as-is. -/
def parse_repeat_pattern (text : String) : Option String :=
  let t := lowerL text.data
  if containsSub "daily".data t then some "daily"
  else if containsSub "every day".data t then some "daily"
  else if containsSub "weekly".data t then some "weekly"
  else if containsSub "every week".data t then some "weekly"
  else if containsSub "monthly".data t then some "monthly"
  else if containsSub "every month".data t then some "monthly"
  else if containsSub "yearly".data t then some "yearly"
  else if containsSub "every year".data t then some "yearly"
  else
    match searchWeekday "every " t with
    | some w => some ("weekly-" ++ weekdayNames.getD w "")
    | none =>
    match searchRe (repNum "day") t with
    | some m => some (String.mk (cap1 m) ++ "d")
    | none =>
    match searchRe (repNum "week") t with
    | some m => some (String.mk (cap1 m) ++ "w")
    | none => (searchRe (repNum "month") t).map (fun m => String.mk (cap1 m) ++ "m")

/-! ### `parse_bullet_points` -/

/-- `\s*,?\s*(?:bullet|point)\s*,?\s*` -/
def bulletNormRe : RE :=
  rcat [.rep true rws, ropt (rchr ','), .rep true rws,
        .alt (rlit "bullet") (rlit "point"), .rep true rws, ropt (rchr ','),
        .rep true rws]

/-- `([^.]+?)\s+bullet(?:\s|$)` -/
def bulletPatA : RE :=
  rcat [.grp 1 (rplusL (.cls (fun c => c != '.'))), rplus rws, rlit "bullet",
        .alt rws rEnd]

/-- `bullet\s+([^.]+?)(?:\s|$)` -/
def bulletPatB : RE :=
  rcat [rlit "bullet", rplus rws, .grp 1 (rplusL (.cls (fun c => c != '.'))),
        .alt rws rEnd]

/-- `\s*(?:bullet|point|,)\s*$` -/
def bulletTrimEndRe : RE :=
  rcat [.rep true rws, raltL [rlit "bullet", rlit "point", rlit ","], .rep true rws,
        rEnd]

/-- `^\s*(?:bullet|point|,)\s*` (used anchored). -/
def bulletTrimStartRe : RE :=
  rcat [.rep true rws, raltL [rlit "bullet", rlit "point", rlit ","], .rep true rws]

/-- The per-item cleanup of `parse_bullet_points` (trailing then leading
bullet/point/comma removed, whitespace collapsed). -/
def cleanItem (it0 : List Char) : List Char :=
  let it1 := subAll bulletTrimEndRe [] it0
  let it2 :=
    match matchHere bulletTrimStartRe it1 with
    | some (len, _) => it1.drop len
    | none => it1
  subAll (rplus rws) [' '] it2

/-- Collect bullet items line by line, both patterns per line, skipping empty
and duplicate items (first occurrence kept). -/
def bulletScan (lines : List (List Char)) : List (List Char) :=
  lines.foldl
    (fun acc line =>
      [bulletPatA, bulletPatB].foldl
        (fun acc2 p =>
          (findAll p line).foldl
            (fun acc3 m =>
              let item := cleanItem (stripWs (cap1 m))
              if item.isEmpty || acc3.contains item then acc3 else acc3 ++ [item])
            acc2)
        acc)
    []

def parse_bullet_points (text : String) : Option String :=
  let cleaned := subAll bulletNormRe " bullet ".data (lowerL text.data)
  let pts := bulletScan (splitOnC '\n' cleaned [])
  if pts.isEmpty then none
  else some (String.mk (('•' :: ' ' :: []) ++ List.intercalate ('\n' :: '•' :: ' ' :: []) pts))

/-! ### `detect_tags` and the grocery lexicon -/

def TAG_MAPPINGS : List (String × List String) :=
  [ ("admin", ["admin", "administration", "manage", "organize"])
  , ("Bicycle", ["bike", "bicycle", "cycling", "ride"])
  , ("Coding", ["code", "coding", "program", "programming", "develop", "script"])
  , ("Health", ["health", "doctor", "medical", "medicine", "workout", "exercise"])
  , ("Plan", ["plan", "planning", "schedule", "strategy"])
  , ("Read/Review", ["read", "review", "book", "article", "document"])
  , ("Research", ["research", "study", "investigate", "analyze"])
  , ("Running", ["run", "running", "jog", "jogging"])
  , ("Shopping", ["shop", "buy", "purchase", "store", "grocery"])
  , ("Travel", ["travel", "trip", "flight", "hotel", "vacation"])
  , ("Watch", ["watch", "view", "stream", "movie", "video"])
  , ("Write", ["write", "draft", "compose", "document"])
  , ("Morning", ["morning", "breakfast", "early", "am"])
  , ("Afternoon", ["afternoon", "lunch", "noon"])
  , ("Evening", ["evening", "night", "dinner", "pm"])
  , ("App/Service", ["app", "application", "service", "software", "website"])
  , ("Communicate", ["email", "call", "message", "contact", "meet", "chat"])
  , ("Device", ["phone", "computer", "laptop", "device", "hardware"])
  , ("Errand", ["errand", "task", "chore", "pickup", "dropoff"])
  , ("Location", ["at", "in", "location", "place", "where"])
  , ("Person", ["with", "person", "people", "team", "group"])
  ]

/-- `detect_tags` builds a Python `set`; its iteration order is unspecified,
modelled here as the `TAG_MAPPINGS` declaration order. -/
def detect_tags (text : String) : List String :=
  let t := lowerL text.data
  (TAG_MAPPINGS.filter (fun tag => tag.2.any (fun kw => containsSub kw.data t))).map (·.1)

def GROCERY_ITEMS : List (String × List String) :=
  [ ("vegetables",
     ["tomatoes", "onions", "carrots", "potatoes", "broccoli", "lettuce", "spinach",
      "peppers", "cucumber", "celery", "radishes", "spring onions", "garlic",
      "ginger", "mushrooms", "cauliflower", "asparagus", "zucchini", "eggplant",
      "cabbage", "kale", "brussels sprouts", "green beans", "peas", "corn"])
  , ("fruits",
     ["apples", "bananas", "oranges", "grapes", "strawberries", "blueberries",
      "raspberries", "blackberries", "pears", "peaches", "plums", "nectarines",
      "mangoes", "pineapple", "kiwi", "melons", "watermelon", "lemons", "limes"])
  , ("dairy",
     ["milk", "cheese", "yogurt", "butter", "cream", "eggs", "sour cream",
      "cottage cheese", "cream cheese"])
  , ("meat",
     ["chicken", "beef", "pork", "lamb", "turkey", "bacon", "sausages",
      "ham", "fish", "salmon", "tuna", "shrimp"])
  , ("pantry",
     ["bread", "rice", "pasta", "flour", "sugar", "salt", "pepper", "oil",
      "vinegar", "cereal", "oats", "beans", "lentils", "canned tomatoes",
      "spices", "herbs", "tea", "coffee", "honey", "jam", "peanut butter"])
  , ("spices",
     ["coriander", "cumin", "turmeric", "paprika", "cinnamon", "nutmeg",
      "cardamom", "cloves", "bay leaves", "oregano", "basil", "thyme",
      "rosemary", "sage", "mint", "chili"])
  ]

/-- The grocery lexicon flattened across categories and lowercased. -/
def allGroceries : List String :=
  ((GROCERY_ITEMS.map Prod.snd).flatten).map (fun w => String.mk (lowerL w.data))

/-- `is_grocery_list`: at least two distinct words of the text (lowercased,
stripped of `.,!?`) that are grocery-lexicon entries. -/
def is_grocery_list (text : String) : Bool :=
  let ws := (splitWs text.data).map (fun w => String.mk (stripPunc (lowerL w)))
  decide (2 ≤ ((ws.dedup).filter (fun w => allGroceries.contains w)).length)

/-! ### `parse_task_attributes` -/

def paMarker : RE := .cls (fun c => c == '#' || c == '@')
def paSep : RE := .cls (fun c => c == '=' || c == ' ')
/-- `[^\s]+(?:\s+[^\s]+)*` -/
def paWords : RE := rcat [rplus rnws, .rep true (rcat [rplus rws, rplus rnws])]

def paProject : RE := rcat [paMarker, rlit "project", paSep, .grp 1 (rplus rnws)]
def paDue : RE := rcat [paMarker, rlit "due", paSep, .grp 1 paWords]
def paDefer : RE := rcat [paMarker, rlit "defer", paSep, .grp 1 paWords]
def paFlag : RE := rcat [paMarker, rlit "flag"]
def paTag : RE := rcat [paMarker, rlit "tag", paSep, .grp 1 (rplus rnws)]
/-- `[#@]note[= ](.+?)(?=[#@]|$)` -/
def paNote : RE :=
  rcat [paMarker, rlit "note", paSep, .grp 1 (rplusL rdot),
        .look (fun s => match s with | [] => true | c :: _ => c == '#' || c == '@')]

/-- The `#tag`/`@tag` captures of the text, in text order. -/
def paTagCaps (text : String) : List String :=
  (findAll paTag text.data).map (fun m => String.mk (cap1 m))

/-- `','.join(tags)` when at least one tag marker matched. -/
def paTagsJoined (text : String) : Option String :=
  let tags := paTagCaps text
  if tags.isEmpty then none else some (joinSep "," tags)

structure TaskAttrs where
  name : String
  project : Option String
  due : Option String
  defer : Option String
  flag : Option String
  tags : Option String
  note : Option String
deriving DecidableEq, Repr

/-- `parse_task_attributes`.  The dynamic `re.sub(r'[#@]tag[= ]' + tag, …)`
treats the captured tag text as a regex; it is modelled as a literal, which
coincides with the source whenever the tag contains no regex metacharacters
(the interesting inputs here). -/
def parse_task_attributes (text : String) : TaskAttrs :=
  let t := text.data
  let pm := searchRe paProject t
  let project := pm.map (fun m => String.mk (cap1 m))
  let n1 := if pm.isSome then subAll paProject [] t else t
  let dm := searchRe paDue t
  let due := dm.map (fun m => String.mk (cap1 m))
  let n2 := if dm.isSome then subAll paDue [] n1 else n1
  let fm := searchRe paDefer t
  let deferV := fm.map (fun m => String.mk (cap1 m))
  let n3 := if fm.isSome then subAll paDefer [] n2 else n2
  let flm := searchRe paFlag t
  let flag := if flm.isSome then some "true" else none
  let n4 := if flm.isSome then subAll paFlag [] n3 else n3
  let tags := paTagCaps text
  let n5 := tags.foldl
    (fun nm tg => subAll (rcat [paMarker, rlit "tag", paSep, rlit tg]) [] nm) n4
  let nm := searchRe paNote t
  let note := nm.map (fun m => String.mk (stripWs (cap1 m)))
  let n6 := if nm.isSome then subAll paNote [] n5 else n5
  let tagsF :=
    if is_grocery_list text then
      match paTagsJoined text with
      | some tj =>
        if tj == "" then some "Location : Sainsbury"
        else some (tj ++ ",Location : Sainsbury")
      | none => some "Location : Sainsbury"
    else paTagsJoined text
  { name := String.mk (stripWs n6), project := project, due := due, defer := deferV,
    flag := flag, tags := tagsF, note := note }

/-! ## The command builder `create_omnifocus_url` -/

/-- The keyword arguments `create_omnifocus_url` is called with.  `folder` is
accepted by the call site but never read inside the function; `flag` is the
only non-string argument the pipeline passes. -/
structure OFKwargs where
  note : Option String
  context : Option String
  project : Option String
  estimate : Option String
  defer : Option String
  due : Option String
  folder : Option String
  flag : Bool
deriving DecidableEq, Repr

/-- Python truthiness of an optional string (`None` and `""` are falsy). -/
def pyTruthyS : Option String → Bool
  | some s => !(s == "")
  | none => false

/-- `params[k] = v` on a Python dict: updates in place, keeping the key's
original position, else appends. -/
def dinsert (k v : String) (ps : List (String × String)) : List (String × String) :=
  if ps.any (fun p => p.1 == k) then
    ps.map (fun p => if p.1 == k then (k, v) else p)
  else ps ++ [(k, v)]

/-- `if value: params[k] = value` for an optional string. -/
def dinsOpt (k : String) (v : Option String) (ps : List (String × String)) :
    List (String × String) :=
  match v with
  | some s => if s == "" then ps else dinsert k s ps
  | none => ps

/-- `if cond: params[k] = v`. -/
def dinsIf (b : Bool) (k v : String) (ps : List (String × String)) :
    List (String × String) :=
  if b then dinsert k v ps else ps

/-- The `notes` assembly of `create_omnifocus_url`: the caller's note (if
truthy) first, then the bullet-rendered or raw note content (if truthy),
joined by a blank line. -/
def noteParam (noteKw : Option String) (noteContent : Option String) : Option String :=
  let fromKw : List String :=
    match noteKw with
    | some n => if n == "" then [] else [n]
    | none => []
  let fromContent : List String :=
    match noteContent with
    | some c =>
      if c == "" then []
      else
        match parse_bullet_points c with
        | some bp => [bp]
        | none => [c]
    | none => []
  let notes := fromKw ++ fromContent
  if notes.isEmpty then none else some (joinSep "\n\n" notes)

/-- The parameter dict built by `create_omnifocus_url`, in the source's
assignment order, ending with the caller overrides for project, context,
estimate, defer and due.  `datetime.now()`'s date is the day number `today`. -/
def createParams (transcript : String) (kw : OFKwargs) (today : Nat) :
    List (String × String) :=
  let tn := extract_task_name_and_note transcript
  let task_name := tn.1
  let note_content := tn.2
  let dd := parse_date_time task_name today
  let p0 : List (String × String) := [("name", task_name)]
  let p1 := dinsOpt "defer" dd.1 p0
  let p2 := dinsOpt "due" dd.2 p1
  let p3 := dinsOpt "note" (noteParam kw.note note_content) p2
  let p4 := dinsOpt "project" (detect_project task_name) p3
  let p5 := dinsOpt "folder" (detect_folder task_name) p4
  let p6 := dinsIf (detect_parallel task_name) "parallel" "true" p5
  let p7 := dinsIf (detect_flag task_name || kw.flag) "flag" "true" p6
  let p8 := dinsOpt "estimate" (parse_duration task_name) p7
  let st := detect_task_status task_name
  let p9 := dinsIf st.completed "completed" "true" p8
  let p10 := dinsIf (!st.reveal) "reveal" "false" p9
  let p11 := dinsIf st.sequential "sequential" "true" p10
  let deps := detect_dependencies task_name
  let p12 := dinsIf (!deps.isEmpty) "dependencies" (joinSep "," deps) p11
  let p13 := dinsOpt "context" (detect_location task_name) p12
  let p14 := dinsOpt "energy" (detect_energy_level task_name) p13
  let p15 := dinsOpt "repeat" (parse_repeat_pattern task_name) p14
  let p16 := dinsOpt "project" kw.project p15
  let p17 := dinsOpt "context" kw.context p16
  let p18 := dinsOpt "estimate" kw.estimate p17
  let p19 := dinsOpt "defer" kw.defer p18
  dinsOpt "due" kw.due p19

/-- Hexadecimal digit (uppercase), as `urllib.parse.quote` emits. -/
def hexDig (n : Nat) : Char :=
  if n < 10 then Char.ofNat (48 + n) else Char.ofNat (55 + n)

/-- Bytes `urllib.parse.quote` leaves unescaped: unreserved characters and `/`. -/
def isUrlSafeByte (b : UInt8) : Bool :=
  let n := b.toNat
  (65 ≤ n && n ≤ 90) || (97 ≤ n && n ≤ 122) || (48 ≤ n && n ≤ 57) ||
    n == 95 || n == 46 || n == 45 || n == 126 || n == 47

/-- `urllib.parse.quote` on the UTF-8 bytes of `s`. -/
def pyQuote (s : String) : String :=
  String.mk ((s.toUTF8.toList).foldr
    (fun b acc =>
      if isUrlSafeByte b then Char.ofNat b.toNat :: acc
      else '%' :: hexDig (b.toNat / 16) :: hexDig (b.toNat % 16) :: acc)
    [])

def create_omnifocus_url (transcript : String) (kw : OFKwargs) (today : Nat) : String :=
  "omnifocus:///add?" ++
    joinSep "&"
      ((createParams transcript kw today).map (fun p => p.1 ++ "=" ++ pyQuote p.2))

/-- Value of key `k` in the built parameter list. -/
def lookupParam (ps : List (String × String)) (k : String) : Option String :=
  (ps.find? (fun p => p.1 == k)).map (·.2)

/-- Is key `k` present in the built parameter list? -/
def hasParam (ps : List (String × String)) (k : String) : Bool :=
  ps.any (fun p => p.1 == k)

/-! ## Pipeline models

Timestamps (`time.time()`) are modelled as integers — the code only uses
their ordered additive structure (differences compared against the literal
60), which the model preserves; the cache file's parsed contents are an
association list from transcript text to last-seen time in dict insertion
order. -/

/-- `f.read().strip()` — the transcript text as the pipeline uses it. -/
def stripStr (s : String) : String := String.mk (stripWs s.data)

/-- The prune step run on every access of the recent-transcript cache:
keep an entry iff `current_time - ts < 60`. -/
def pruneCache (cache : List (ℤ × String)) (now : ℤ) : List (ℤ × String) :=
  cache.filter (fun e => decide (now - e.1 < 60))

structure PTUResult where
  ok : Bool
  dispatched : Bool
  url : Option String
  cacheOut : List (ℤ × String)
deriving DecidableEq, Repr

/-- `process_transcript_to_url`.  `fileText` is the transcript file's
contents (the function strips it), `cache` the loaded recent-transcript
dict, `now` the value of `time.time()`, and `openOk` the outcome of the
`open <url>` dispatch subprocess.  `cacheOut` is the persisted cache file
after the call: on a duplicate hit the function returns *before* rewriting
the file, so the file keeps its previous (unpruned) contents. -/
def process_transcript_to_url (fileText : String) (cache : List (ℤ × String))
    (now : ℤ) (today : Nat) (openOk : Bool) : PTUResult :=
  let transcript := stripStr fileText
  let pruned := pruneCache cache now
  if pruned.any (fun e => e.2 == transcript) then
    { ok := true, dispatched := false, url := none, cacheOut := cache }
  else
    let updated := pruned ++ [(now, transcript)]
    let folder := detect_folder transcript
    let tags := detect_tags transcript
    let context := if tags.isEmpty then none else some (joinSep ", " tags)
    let url := create_omnifocus_url transcript
      { note := some "Created via Voice Transcription", context := context,
        project := none, estimate := none, defer := none, due := none,
        folder := folder, flag := true } today
    { ok := openOk, dispatched := true, url := some url, cacheOut := updated }

/-- `fcntl.flock(fd, LOCK_EX | LOCK_NB)`: acquired iff no other process holds
the lock; the call returns immediately either way (it never blocks). -/
def fileLockAcquire (heldElsewhere : Bool) : Bool := !heldElsewhere

structure SshOutcome where
  ranBody : Bool
  dispatched : Bool
  ok : Bool
deriving DecidableEq, Repr

/-- `process_via_ssh`.  The remote steps (transcription command, remote
transcript check, `scp`, local file check) are abstracted as boolean
outcomes; the transcript-to-url step is the model above.  The Python
`with FileLock(LOCK_FILE):` statement runs its body regardless of the
boolean `__enter__` returned, so the critical section executes even when
the lock was *not* acquired; on that path `__exit__` then calls `flock` on
an already-closed descriptor, the raised `OSError` is caught by the outer
`except`, and the function returns `False`. -/
def process_via_ssh (heldElsewhere : Bool)
    (transcribeOk remoteHasTranscript scpOk localHasTranscript : Bool)
    (fileText : String) (cache : List (ℤ × String)) (now : ℤ) (today : Nat)
    (openOk : Bool) : SshOutcome :=
  let acquired := fileLockAcquire heldElsewhere
  let body : Bool × Bool :=
    if !transcribeOk then (false, false)
    else if !remoteHasTranscript then (false, false)
    else if !scpOk then (false, false)
    else if !localHasTranscript then (false, false)
    else
      let r := process_transcript_to_url fileText cache now today openOk
      (r.ok, r.dispatched)
  if acquired then { ranBody := true, dispatched := body.2, ok := body.1 }
  else { ranBody := true, dispatched := body.2, ok := false }

structure DropState where
  atDrop : Bool
  atStaging : Bool
deriving DecidableEq, Repr

/-- One iteration of `main` for a single cloud-synced recording.
`shutil.move` of an existing local file is modelled as reliable filesystem
semantics; `moveOk` is `move_to_temp`'s try/except (a failure there raises
before the file leaves the drop location).  The remote steps (`scp`, remote
verification, `process_via_ssh`) are abstracted as boolean outcomes.  On any
failure after a successful move, `main`'s handler finds the staged file
still present and moves it back to the drop location. -/
def handle_icloud_file (canSsh moveOk scpOk remoteVerifyOk processOk : Bool) :
    DropState :=
  if !canSsh then { atDrop := true, atStaging := false }
  else if !moveOk then { atDrop := true, atStaging := false }
  else if scpOk && remoteVerifyOk && processOk then
    { atDrop := false, atStaging := true }
  else { atDrop := true, atStaging := false }

/-! ## Statement helpers -/

/-- The utterance contains a weekday expression `next/on/this <weekday>`
(on the lowercased text, as the claims phrase it). -/
def containsWeekdayExpr (s : List Char) : Bool :=
  (List.range 7).any (fun j =>
    containsSub ("next ".data ++ (weekdayNames.getD j "").data) s ||
    containsSub ("on ".data ++ (weekdayNames.getD j "").data) s ||
    containsSub ("this ".data ++ (weekdayNames.getD j "").data) s)

/-- Does a string have the `<hours>h<minutes>m` shape the spec prescribes for
estimate tokens? -/
def isHMToken (s : String) : Bool :=
  match splitOnC 'h' s.data [] with
  | [hs, rest] =>
    !hs.isEmpty && hs.all Char.isDigit &&
      (match rest.reverse with
       | c :: ds => c == 'm' && !ds.isEmpty && ds.all Char.isDigit
       | [] => false)
  | _ => false

/-! ## Lemmas -/

theorem matchWeekdayHere_lt7 {kw : String} {s : List Char} {i : Nat}
    (h : matchWeekdayHere kw s = some i) : i < 7 := by
  have hm := List.mem_of_find?_eq_some h
  simpa using hm

theorem searchWeekday_lt7 (kw : String) :
    ∀ s i, searchWeekday kw s = some i → i < 7 := by
  intro s
  induction s with
  | nil => intro i h; simp [searchWeekday] at h
  | cons c t ih =>
    intro i h
    unfold searchWeekday at h
    cases e : matchWeekdayHere kw (c :: t) with
    | some j =>
      rw [e] at h
      cases h
      exact matchWeekdayHere_lt7 e
    | none =>
      rw [e] at h
      exact ih i h

theorem searchWeekday_isSome_of_contains (kw : String) (j : Nat) (hj : j < 7)
    (s : List Char)
    (h : containsSub (kw.data ++ (weekdayNames.getD j "").data) s = true) :
    (searchWeekday kw s).isSome := by
  induction s with
  | nil =>
    exfalso
    unfold containsSub at h
    rw [List.isEmpty_iff, List.append_eq_nil] at h
    have hne : (weekdayNames.getD j "").data ≠ [] := by
      interval_cases j <;> decide
    exact hne h.2
  | cons c t ih =>
    unfold containsSub at h
    rw [Bool.or_eq_true] at h
    rcases h with hpre | htail
    · unfold searchWeekday
      have hsome : (matchWeekdayHere kw (c :: t)).isSome := by
        rw [matchWeekdayHere, List.find?_isSome]
        exact ⟨j, by simpa using hj, hpre⟩
      cases e : matchWeekdayHere kw (c :: t) with
      | some w => simp
      | none => rw [e] at hsome; simp at hsome
    · have := ih htail
      unfold searchWeekday
      cases e : matchWeekdayHere kw (c :: t) with
      | some w => simp
      | none => exact this

theorem resolve_weekday_bounds (today w : Nat) (hw : w < 7) :
    today < resolveDayNum today (.weekday w) ∧
      resolveDayNum today (.weekday w) ≤ today + 7 := by
  unfold resolveDayNum weekdayOf
  have hc : (today + 3) % 7 < 7 := Nat.mod_lt _ (by omega)
  by_cases h : w ≤ (today + 3) % 7 <;> simp [h] <;> omega

/-! ## Claim C1 -/

/-- C1, counterexample.  The claim says every utterance containing a
`next/on/this <weekday>` expression resolves to a date strictly later than
the current date; but the day-pattern list tries `(today)` first, so an
utterance that also contains the word "today" resolves to today's own date
(offset 0).  Checked end to end on `parse_date_time`: the produced due date
equals `dateStr today`. -/
theorem c1_weekday_today_counterexample :
    containsWeekdayExpr (lowerL "finish today or next monday".data) = true ∧
    (matchDay (lowerL "finish today or next monday".data)).map (resolveDayNum 20000) =
      some 20000 ∧
    parse_date_time "finish today or next monday" 20000 = (none, some (dateStr 20000)) := by
  refine ⟨by decide, by decide, ?_⟩
  decide

/-- C1, amended: for every utterance that contains a weekday expression
`next/on/this <weekday>` and does **not** contain the substring "today", the
day resolved by `parse_date_time`'s date detection (`matchDay` followed by
`resolveDayNum`) is strictly later than the current date, and at most seven
days ahead — so it never resolves to today even when today is that weekday. -/
theorem c1_weekday_strictly_future_amended (u : String) (today : Nat)
    (hw : containsWeekdayExpr (lowerL u.data) = true)
    (ht : containsSub "today".data (lowerL u.data) = false) :
    ∃ d, (matchDay (lowerL u.data)).map (resolveDayNum today) = some d ∧
      today < d ∧ d ≤ today + 7 := by
  set l := lowerL u.data with hl
  unfold matchDay
  rw [ht]
  simp only [if_false, Bool.false_eq_true]
  by_cases htm : containsSub "tomorrow".data l = true
  · exact ⟨today + 1, by simp [htm, resolveDayNum], by omega, by omega⟩
  · simp only [htm, if_false, Bool.false_eq_true]
    cases e1 : searchWeekday "next " l with
    | some w =>
      have hw7 := searchWeekday_lt7 "next " l w e1
      exact ⟨resolveDayNum today (.weekday w), by simp,
        (resolve_weekday_bounds today w hw7).1, (resolve_weekday_bounds today w hw7).2⟩
    | none =>
      cases e2 : searchWeekday "on " l with
      | some w =>
        have hw7 := searchWeekday_lt7 "on " l w e2
        exact ⟨resolveDayNum today (.weekday w), by simp,
          (resolve_weekday_bounds today w hw7).1, (resolve_weekday_bounds today w hw7).2⟩
      | none =>
        cases e3 : searchWeekday "this " l with
        | some w =>
          have hw7 := searchWeekday_lt7 "this " l w e3
          exact ⟨resolveDayNum today (.weekday w), by simp,
            (resolve_weekday_bounds today w hw7).1, (resolve_weekday_bounds today w hw7).2⟩
        | none =>
          exfalso
          rw [containsWeekdayExpr, List.any_eq_true] at hw
          obtain ⟨j, hjmem, hj⟩ := hw
          have hj7 : j < 7 := by simpa using hjmem
          rw [Bool.or_eq_true, Bool.or_eq_true] at hj
          rcases hj with (h1 | h2) | h3
          · have := searchWeekday_isSome_of_contains "next " j hj7 l h1
            rw [e1] at this; simp at this
          · have := searchWeekday_isSome_of_contains "on " j hj7 l h2
            rw [e2] at this; simp at this
          · have := searchWeekday_isSome_of_contains "this " j hj7 l h3
            rw [e3] at this; simp at this

/-- C1, witness for the amended theorem at a concrete input: day 20000
(2024-10-04) is itself a Friday, and "next friday" still lands strictly in
the future, one week ahead. -/
theorem c1_weekday_strictly_future_witness :
    containsWeekdayExpr (lowerL "call mom next friday".data) = true ∧
    containsSub "today".data (lowerL "call mom next friday".data) = false ∧
    ∃ d, (matchDay (lowerL "call mom next friday".data)).map (resolveDayNum 20000) =
        some d ∧ 20000 < d ∧ d ≤ 20000 + 7 :=
  ⟨by decide, by decide,
    c1_weekday_strictly_future_amended "call mom next friday" 20000 (by decide) (by decide)⟩

/-! ## Claim C2 -/

/-- C2, counterexample.  The claim says the extracted task name is non-empty
for every utterance; but an utterance that *begins* with a note cue leaves
nothing before the cue, and the name comes out empty. -/
theorem c2_empty_name_counterexample :
    (extract_task_name_and_note "note: buy milk").1 = "" ∧
    "note: buy milk" ≠ "" := by
  constructor
  · decide
  · decide

/-- C2, amended: extraction is total by construction, and when no note-cue
pattern matches the name is the whole utterance trimmed; that name is
non-empty provided the utterance has a non-whitespace character.  (It can be
empty for blank utterances, or when the utterance starts with a note cue.) -/
theorem c2_name_fallback_amended (s : String) (h : noteSearch s.data = none) :
    (extract_task_name_and_note s).1 = String.mk (stripWs s.data) ∧
    (stripWs s.data ≠ [] → (extract_task_name_and_note s).1 ≠ "") := by
  unfold extract_task_name_and_note
  rw [h]
  refine ⟨rfl, ?_⟩
  intro hne heq
  exact hne (congrArg String.data heq)

/-- C2, witness for the amended theorem at the concrete utterance
"buy milk", where no note cue matches. -/
theorem c2_name_fallback_witness :
    noteSearch "buy milk".data = none ∧
    ((extract_task_name_and_note "buy milk").1 = String.mk (stripWs "buy milk".data) ∧
     (stripWs "buy milk".data ≠ [] → (extract_task_name_and_note "buy milk").1 ≠ "")) :=
  ⟨by decide, c2_name_fallback_amended "buy milk" (by decide)⟩


/-! ### Lemmas about the parameter dict -/

theorem find?_update (k v : String) :
    ∀ ps : List (String × String),
      ps.any (fun p => p.1 == k) = true →
      (ps.map (fun p => if p.1 == k then (k, v) else p)).find? (fun p => p.1 == k) =
        some (k, v) := by
  intro ps
  induction ps with
  | nil => intro h; simp at h
  | cons a t ih =>
    intro h
    rw [List.map_cons]
    by_cases ha : (a.1 == k) = true
    · rw [if_pos ha]
      exact @List.find?_cons_of_pos _ (fun p => p.1 == k) (k, v) _ (by simp)
    · rw [if_neg ha]
      rw [@List.find?_cons_of_neg _ (fun p => p.1 == k) a _ ha]
      apply ih
      rw [List.any_cons, Bool.or_eq_true] at h
      rcases h with h | h
      · exact absurd h ha
      · exact h

theorem find?_map_update_ne (k k' v : String) (hne : k ≠ k') :
    ∀ ps : List (String × String),
      (ps.map (fun p => if p.1 == k' then (k', v) else p)).find? (fun p => p.1 == k) =
        ps.find? (fun p => p.1 == k) := by
  intro ps
  induction ps with
  | nil => rfl
  | cons a t ih =>
    rw [List.map_cons]
    by_cases ha : (a.1 == k') = true
    · rw [if_pos ha]
      have ha' : a.1 = k' := eq_of_beq ha
      have h1 : ¬((((k', v) : String × String).1 == k) = true) := by
        intro hh
        exact hne (eq_of_beq hh).symm
      have h2 : ¬((a.1 == k) = true) := by
        intro hh
        rw [ha'] at hh
        exact hne (eq_of_beq hh).symm
      rw [@List.find?_cons_of_neg _ (fun p => p.1 == k) (k', v) _ h1,
          @List.find?_cons_of_neg _ (fun p => p.1 == k) a _ h2, ih]
    · rw [if_neg ha]
      by_cases hak : (a.1 == k) = true
      · rw [@List.find?_cons_of_pos _ (fun p => p.1 == k) a _ hak,
            @List.find?_cons_of_pos _ (fun p => p.1 == k) a _ hak]
      · rw [@List.find?_cons_of_neg _ (fun p => p.1 == k) a _ hak,
            @List.find?_cons_of_neg _ (fun p => p.1 == k) a _ hak, ih]

theorem find?_append_or {α} (p : α → Bool) :
    ∀ l₁ l₂ : List α,
      (l₁ ++ l₂).find? p =
        match l₁.find? p with
        | some a => some a
        | none => l₂.find? p := by
  intro l₁
  induction l₁ with
  | nil => intro l₂; rfl
  | cons a t ih =>
    intro l₂
    by_cases hpa : p a = true
    · rw [List.cons_append, @List.find?_cons_of_pos _ p a _ hpa,
          @List.find?_cons_of_pos _ p a _ hpa]
    · rw [List.cons_append, @List.find?_cons_of_neg _ p a _ hpa,
          @List.find?_cons_of_neg _ p a _ hpa, ih]

theorem lookupParam_dinsert_self (k v : String) (ps : List (String × String)) :
    lookupParam (dinsert k v ps) k = some v := by
  unfold dinsert lookupParam
  by_cases h : ps.any (fun p => p.1 == k) = true
  · rw [if_pos h, find?_update k v ps h]
    rfl
  · rw [if_neg h, find?_append_or]
    have hnone : ps.find? (fun p => p.1 == k) = none := by
      rw [List.find?_eq_none]
      intro x hx hpx
      exact h (List.any_eq_true.mpr ⟨x, hx, hpx⟩)
    rw [hnone]
    rw [@List.find?_cons_of_pos _ (fun p => p.1 == k) (k, v) _ (by simp)]
    rfl

theorem lookupParam_dinsert_ne {k k' : String} (hne : k ≠ k') (v : String)
    (ps : List (String × String)) :
    lookupParam (dinsert k' v ps) k = lookupParam ps k := by
  unfold dinsert lookupParam
  by_cases h : ps.any (fun p => p.1 == k') = true
  · rw [if_pos h, find?_map_update_ne k k' v hne ps]
  · rw [if_neg h, find?_append_or]
    have h1 : ¬((((k', v) : String × String).1 == k) = true) := by
      intro hh
      exact hne (eq_of_beq hh).symm
    cases e : ps.find? (fun p => p.1 == k) with
    | some a => rfl
    | none =>
      rw [@List.find?_cons_of_neg _ (fun p => p.1 == k) (k', v) _ h1]
      rfl

theorem lookupParam_dinsOpt_ne {k k' : String} (hne : k ≠ k') (v : Option String)
    (ps : List (String × String)) :
    lookupParam (dinsOpt k' v ps) k = lookupParam ps k := by
  cases v with
  | none => rfl
  | some s =>
    simp only [dinsOpt]
    by_cases hs : (s == "") = true
    · rw [if_pos hs]
    · rw [if_neg hs]
      exact lookupParam_dinsert_ne hne s ps

theorem lookupParam_dinsOpt_self (k s : String) (ps : List (String × String))
    (hs : s ≠ "") :
    lookupParam (dinsOpt k (some s) ps) k = some s := by
  simp only [dinsOpt]
  rw [if_neg (by simpa using hs)]
  exact lookupParam_dinsert_self k s ps

theorem lookupParam_dinsIf_ne {k k' : String} (hne : k ≠ k') (b : Bool) (v : String)
    (ps : List (String × String)) :
    lookupParam (dinsIf b k' v ps) k = lookupParam ps k := by
  unfold dinsIf
  cases b with
  | false => rfl
  | true => exact lookupParam_dinsert_ne hne v ps

theorem any_key_map_update (k k' v : String) :
    ∀ ps : List (String × String),
      (ps.map (fun p => if p.1 == k' then (k', v) else p)).any (fun p => p.1 == k) =
        ps.any (fun p => p.1 == k) := by
  intro ps
  induction ps with
  | nil => rfl
  | cons a t ih =>
    rw [List.map_cons, List.any_cons, List.any_cons, ih]
    by_cases ha : (a.1 == k') = true
    · rw [if_pos ha, eq_of_beq ha]
    · rw [if_neg ha]

theorem hasParam_dinsert_self (k v : String) (ps : List (String × String)) :
    hasParam (dinsert k v ps) k = true := by
  unfold dinsert hasParam
  by_cases h : ps.any (fun p => p.1 == k) = true
  · rw [if_pos h, any_key_map_update, h]
  · rw [if_neg h, List.any_append]
    have h' : ps.any (fun p => p.1 == k) = false := by
      rwa [Bool.not_eq_true] at h
    rw [h']
    simp

theorem hasParam_dinsert_ne {k k' : String} (hne : k ≠ k') (v : String)
    (ps : List (String × String)) :
    hasParam (dinsert k' v ps) k = hasParam ps k := by
  unfold dinsert hasParam
  by_cases h : ps.any (fun p => p.1 == k') = true
  · rw [if_pos h, any_key_map_update]
  · rw [if_neg h, List.any_append]
    have h1 : ((k' == k) = false) := by
      rw [beq_eq_false_iff_ne]
      exact Ne.symm hne
    simp [h1]

theorem hasParam_dinsOpt_ne {k k' : String} (hne : k ≠ k') (v : Option String)
    (ps : List (String × String)) :
    hasParam (dinsOpt k' v ps) k = hasParam ps k := by
  cases v with
  | none => rfl
  | some s =>
    simp only [dinsOpt]
    by_cases hs : (s == "") = true
    · rw [if_pos hs]
    · rw [if_neg hs]
      exact hasParam_dinsert_ne hne s ps

theorem hasParam_dinsIf_self (b : Bool) (k v : String) (ps : List (String × String)) :
    hasParam (dinsIf b k v ps) k = (b || hasParam ps k) := by
  unfold dinsIf
  cases b with
  | false => simp
  | true => simp [hasParam_dinsert_self]

theorem hasParam_dinsIf_ne {k k' : String} (hne : k ≠ k') (b : Bool) (v : String)
    (ps : List (String × String)) :
    hasParam (dinsIf b k' v ps) k = hasParam ps k := by
  unfold dinsIf
  cases b with
  | false => rfl
  | true => exact hasParam_dinsert_ne hne v ps

theorem lookupParam_single_ne {k k' : String} (hne : (k' == k) = false) (v : String) :
    lookupParam [(k', v)] k = none := by
  unfold lookupParam
  rw [@List.find?_cons_of_neg _ (fun p => p.1 == k) (k', v) _ (by simp [hne])]
  rfl

theorem hasParam_single_ne {k k' : String} (hne : (k' == k) = false) (v : String) :
    hasParam [(k', v)] k = false := by
  unfold hasParam
  simp [hne]

theorem lookupParam_dinsOpt_congr (k : String) (v : Option String)
    (ps qs : List (String × String)) (hps : lookupParam ps k = none)
    (hqs : lookupParam qs k = none) :
    lookupParam (dinsOpt k v ps) k = lookupParam (dinsOpt k v qs) k := by
  cases v with
  | none =>
    simp only [dinsOpt]
    rw [hps, hqs]
  | some s =>
    simp only [dinsOpt]
    by_cases hs : (s == "") = true
    · rw [if_pos hs, if_pos hs, hps, hqs]
    · rw [if_neg hs, if_neg hs, lookupParam_dinsert_self, lookupParam_dinsert_self]

/-! ## Claim C3 -/

/-- C3, counterexample.  The claim says that whenever an attribute has both a
detected value and a caller-supplied override, the override appears in the
built command and the detected value does not.  For the folder attribute the
caller's keyword argument is never read: with detected folder "Personal" and
override folder "Work", the built parameters carry "Personal". -/
theorem c3_folder_override_ignored_counterexample :
    lookupParam
      (createParams "submit expenses in the personal folder"
        { note := some "Created via Voice Transcription", context := none,
          project := none, estimate := none, defer := none, due := none,
          folder := some "Work", flag := true } 0) "folder" = some "Personal" ∧
    some "Personal" ≠ some "Work" := by
  constructor
  · decide
  · decide

/-- C3, amended: the caller overrides for project, context, estimate, defer
and due do replace any detected value (the built parameter carries exactly
the override); the folder parameter, however, is determined by detection
alone — the caller-supplied folder is ignored; the flag parameter is present
iff the flag was detected *or* the caller asked for it; and the caller's
(provenance) note does not replace detected note content — the two are
joined with a blank line, so both appear in the command. -/
theorem c3_precedence_amended (t : String) (kw : OFKwargs) (today : Nat) :
    (∀ v, kw.project = some v → v ≠ "" →
      lookupParam (createParams t kw today) "project" = some v) ∧
    (∀ v, kw.context = some v → v ≠ "" →
      lookupParam (createParams t kw today) "context" = some v) ∧
    (∀ v, kw.estimate = some v → v ≠ "" →
      lookupParam (createParams t kw today) "estimate" = some v) ∧
    (∀ v, kw.defer = some v → v ≠ "" →
      lookupParam (createParams t kw today) "defer" = some v) ∧
    (∀ v, kw.due = some v → v ≠ "" →
      lookupParam (createParams t kw today) "due" = some v) ∧
    lookupParam (createParams t kw today) "folder" =
      lookupParam
        (dinsOpt "folder" (detect_folder (extract_task_name_and_note t).1) []) "folder" ∧
    hasParam (createParams t kw today) "flag" =
      (detect_flag (extract_task_name_and_note t).1 || kw.flag) ∧
    (∀ n c, kw.note = some n → n ≠ "" → (extract_task_name_and_note t).2 = some c →
      c ≠ "" → parse_bullet_points c = none →
      lookupParam (createParams t kw today) "note" = some (n ++ "\n\n" ++ c)) := by
  refine ⟨?_, ?_, ?_, ?_, ?_, ?_, ?_, ?_⟩
  · intro v hv hne
    simp +decide only [createParams, lookupParam_dinsOpt_ne]
    rw [hv, lookupParam_dinsOpt_self _ _ _ hne]
  · intro v hv hne
    simp +decide only [createParams, lookupParam_dinsOpt_ne]
    rw [hv, lookupParam_dinsOpt_self _ _ _ hne]
  · intro v hv hne
    simp +decide only [createParams, lookupParam_dinsOpt_ne]
    rw [hv, lookupParam_dinsOpt_self _ _ _ hne]
  · intro v hv hne
    simp +decide only [createParams, lookupParam_dinsOpt_ne]
    rw [hv, lookupParam_dinsOpt_self _ _ _ hne]
  · intro v hv hne
    simp +decide only [createParams, lookupParam_dinsOpt_ne]
    rw [hv, lookupParam_dinsOpt_self _ _ _ hne]
  · simp +decide only [createParams, lookupParam_dinsOpt_ne, lookupParam_dinsIf_ne]
    apply lookupParam_dinsOpt_congr
    · simp +decide only [lookupParam_dinsOpt_ne]
      exact lookupParam_single_ne (by decide) _
    · rfl
  · simp +decide only [createParams, hasParam_dinsOpt_ne, hasParam_dinsIf_ne,
      hasParam_dinsIf_self]
    rw [hasParam_single_ne (by decide)]
    rw [Bool.or_false]
  · intro n c hn hne hc hcne hbp
    simp +decide only [createParams, lookupParam_dinsOpt_ne, lookupParam_dinsIf_ne]
    rw [hn, hc]
    have hval : noteParam (some n) (some c) = some (n ++ "\n\n" ++ c) := by
      simp only [noteParam, hbp]
      simp [hne, hcne, joinSep]
    rw [hval]
    apply lookupParam_dinsOpt_self
    intro h
    have hlen := congrArg String.length h
    rw [String.length_append, String.length_append] at hlen
    have h2 : ("\n\n" : String).length = 2 := rfl
    rw [h2] at hlen
    simp at hlen

/-- C3, witness for the amended theorem at a concrete transcript and a
concrete override set: every override lands in the parameters, the folder
parameter ignores the caller's "Work", and the caller's note is joined with
the detected note content. -/
theorem c3_precedence_witness :
    lookupParam
      (createParams "submit expenses in the personal folder with note: keep receipts"
        { note := some "N", context := some "C2", project := some "P2",
          estimate := some "2h0m", defer := some "2025-01-02", due := some "2025-01-03",
          folder := some "Work", flag := true } 0) "project" = some "P2" ∧
    lookupParam
      (createParams "submit expenses in the personal folder with note: keep receipts"
        { note := some "N", context := some "C2", project := some "P2",
          estimate := some "2h0m", defer := some "2025-01-02", due := some "2025-01-03",
          folder := some "Work", flag := true } 0) "context" = some "C2" ∧
    lookupParam
      (createParams "submit expenses in the personal folder with note: keep receipts"
        { note := some "N", context := some "C2", project := some "P2",
          estimate := some "2h0m", defer := some "2025-01-02", due := some "2025-01-03",
          folder := some "Work", flag := true } 0) "estimate" = some "2h0m" ∧
    lookupParam
      (createParams "submit expenses in the personal folder with note: keep receipts"
        { note := some "N", context := some "C2", project := some "P2",
          estimate := some "2h0m", defer := some "2025-01-02", due := some "2025-01-03",
          folder := some "Work", flag := true } 0) "defer" = some "2025-01-02" ∧
    lookupParam
      (createParams "submit expenses in the personal folder with note: keep receipts"
        { note := some "N", context := some "C2", project := some "P2",
          estimate := some "2h0m", defer := some "2025-01-02", due := some "2025-01-03",
          folder := some "Work", flag := true } 0) "due" = some "2025-01-03" ∧
    lookupParam
      (createParams "submit expenses in the personal folder with note: keep receipts"
        { note := some "N", context := some "C2", project := some "P2",
          estimate := some "2h0m", defer := some "2025-01-02", due := some "2025-01-03",
          folder := some "Work", flag := true } 0) "folder" =
      lookupParam
        (dinsOpt "folder"
          (detect_folder
            (extract_task_name_and_note
              "submit expenses in the personal folder with note: keep receipts").1) [])
        "folder" ∧
    lookupParam
      (createParams "submit expenses in the personal folder with note: keep receipts"
        { note := some "N", context := some "C2", project := some "P2",
          estimate := some "2h0m", defer := some "2025-01-02", due := some "2025-01-03",
          folder := some "Work", flag := true } 0) "note" =
      some ("N" ++ "\n\n" ++ "keep receipts") := by
  have h := c3_precedence_amended
    "submit expenses in the personal folder with note: keep receipts"
    { note := some "N", context := some "C2", project := some "P2",
      estimate := some "2h0m", defer := some "2025-01-02", due := some "2025-01-03",
      folder := some "Work", flag := true } 0
  exact ⟨h.1 "P2" rfl (by decide), h.2.1 "C2" rfl (by decide),
    h.2.2.1 "2h0m" rfl (by decide), h.2.2.2.1 "2025-01-02" rfl (by decide),
    h.2.2.2.2.1 "2025-01-03" rfl (by decide), h.2.2.2.2.2.1,
    h.2.2.2.2.2.2.2 "N" "keep receipts" rfl (by decide) (by decide) (by decide)
      (by decide)⟩

/-! ### Step lemmas for the transcript cache -/

theorem ptu_dup (fileText : String) (cache : List (ℤ × String)) (now : ℤ)
    (today : Nat) (openOk : Bool)
    (h : (pruneCache cache now).any (fun e => e.2 == stripStr fileText) = true) :
    process_transcript_to_url fileText cache now today openOk =
      { ok := true, dispatched := false, url := none, cacheOut := cache } := by
  simp only [process_transcript_to_url]
  rw [if_pos h]

theorem ptu_fresh (fileText : String) (cache : List (ℤ × String)) (now : ℤ)
    (today : Nat) (openOk : Bool)
    (h : (pruneCache cache now).any (fun e => e.2 == stripStr fileText) = false) :
    process_transcript_to_url fileText cache now today openOk =
      { ok := openOk, dispatched := true,
        url := some (create_omnifocus_url (stripStr fileText)
          { note := some "Created via Voice Transcription",
            context :=
              if (detect_tags (stripStr fileText)).isEmpty then none
              else some (joinSep ", " (detect_tags (stripStr fileText))),
            project := none, estimate := none, defer := none, due := none,
            folder := detect_folder (stripStr fileText), flag := true } today),
        cacheOut := pruneCache cache now ++ [(now, stripStr fileText)] } := by
  simp only [process_transcript_to_url]
  rw [if_neg (by simp [h])]

theorem prune_window (cache : List (ℤ × String)) (now : ℤ) :
    (pruneCache cache now).all (fun e => decide (now - e.1 < 60)) = true := by
  apply List.all_eq_true.mpr
  intro e he
  rw [pruneCache, List.mem_filter] at he
  exact he.2

/-! ## Claim C4 -/

/-- C4, counterexample.  The claim's last clause says entries older than the
60-second window are pruned from the cache on every access; but on a
duplicate hit the function returns before rewriting the cache file, so an
expired entry (here 120 seconds old) survives that access. -/
theorem c4_stale_entry_survives_counterexample :
    (process_transcript_to_url "buy milk" [((0 : ℤ), "old"), (100, "buy milk")]
        120 0 true).cacheOut = [((0 : ℤ), "old"), (100, "buy milk")] ∧
    (process_transcript_to_url "buy milk" [((0 : ℤ), "old"), (100, "buy milk")]
        120 0 true).dispatched = false ∧
    ((0 : ℤ), "old") ∈
      (process_transcript_to_url "buy milk" [((0 : ℤ), "old"), (100, "buy milk")]
        120 0 true).cacheOut ∧
    ¬((120 : ℤ) - 0 < 60) := by
  refine ⟨by decide, by decide, by decide, by norm_num⟩

/-- C4, amended: starting from a cache in which the transcript is not a live
entry, the first run dispatches; an identical transcript within 60 seconds is
a success-no-op (no second dispatch), while after 60 or more seconds it
dispatches again.  Pruning holds for every access that records a transcript:
the cache written by such an access only carries entries inside the window
(a duplicate hit, however, returns without rewriting the cache file —
see the counterexample). -/
theorem c4_dedup_window_amended (cache : List (ℤ × String)) (t : String)
    (now1 now2 : ℤ) (today : Nat) (d1 d2 : Bool)
    (hfresh : (pruneCache cache now1).any (fun e => e.2 == stripStr t) = false) :
    (process_transcript_to_url t cache now1 today d1).dispatched = true ∧
    (now2 - now1 < 60 →
      (process_transcript_to_url t
        (process_transcript_to_url t cache now1 today d1).cacheOut
        now2 today d2).dispatched = false ∧
      (process_transcript_to_url t
        (process_transcript_to_url t cache now1 today d1).cacheOut
        now2 today d2).ok = true) ∧
    (60 ≤ now2 - now1 →
      (process_transcript_to_url t
        (process_transcript_to_url t cache now1 today d1).cacheOut
        now2 today d2).dispatched = true) ∧
    (process_transcript_to_url t cache now1 today d1).cacheOut.all
      (fun e => decide (now1 - e.1 < 60)) = true := by
  rw [ptu_fresh t cache now1 today d1 hfresh]
  refine ⟨rfl, ?_, ?_, ?_⟩
  · intro hlt
    have hdup : (pruneCache (pruneCache cache now1 ++ [(now1, stripStr t)]) now2).any
        (fun e => e.2 == stripStr t) = true := by
      apply List.any_eq_true.mpr
      refine ⟨(now1, stripStr t), ?_, by simp⟩
      rw [pruneCache, List.mem_filter]
      constructor
      · exact List.mem_append_right _ (by simp)
      · simpa using hlt
    rw [ptu_dup t _ now2 today d2 hdup]
    exact ⟨rfl, rfl⟩
  · intro hge
    have hfr : (pruneCache (pruneCache cache now1 ++ [(now1, stripStr t)]) now2).any
        (fun e => e.2 == stripStr t) = false := by
      apply Bool.eq_false_iff.mpr
      intro hx
      obtain ⟨e, he, hpe⟩ := List.any_eq_true.mp hx
      rw [pruneCache, List.mem_filter] at he
      have he2 : now2 - e.1 < 60 := by simpa using he.2
      rcases List.mem_append.mp he.1 with h1 | h1
      · have hall : ∀ x ∈ pruneCache cache now1, (x.2 == stripStr t) = false := by
          intro x hxm
          by_cases hb : (x.2 == stripStr t) = true
          · exact absurd (List.any_eq_true.mpr ⟨x, hxm, hb⟩) (by rw [hfresh]; simp)
          · exact Bool.eq_false_iff.mpr hb
        rw [hall e h1] at hpe
        simp at hpe
      · have he' : e = (now1, stripStr t) := by simpa using h1
        rw [he'] at he2
        simp only at he2
        linarith
    rw [ptu_fresh t _ now2 today d2 hfr]
  · rw [List.all_append, prune_window]
    simp

/-- C4, witness for the amended theorem: empty cache, first run at time 0,
second run at time 30 (inside the window). -/
theorem c4_dedup_window_witness :
    (pruneCache ([] : List (ℤ × String)) 0).any
      (fun e => e.2 == stripStr "buy milk") = false ∧
    ((process_transcript_to_url "buy milk" [] 0 0 true).dispatched = true ∧
     ((30 : ℤ) - 0 < 60 →
       (process_transcript_to_url "buy milk"
         (process_transcript_to_url "buy milk" [] 0 0 true).cacheOut
         30 0 true).dispatched = false ∧
       (process_transcript_to_url "buy milk"
         (process_transcript_to_url "buy milk" [] 0 0 true).cacheOut
         30 0 true).ok = true) ∧
     ((60 : ℤ) ≤ 30 - 0 →
       (process_transcript_to_url "buy milk"
         (process_transcript_to_url "buy milk" [] 0 0 true).cacheOut
         30 0 true).dispatched = true) ∧
     (process_transcript_to_url "buy milk" [] 0 0 true).cacheOut.all
       (fun e => decide ((0 : ℤ) - e.1 < 60)) = true) :=
  ⟨by decide,
    c4_dedup_window_amended [] "buy milk" 0 30 0 true true (by decide)⟩

/-! ## Claim C10 -/

/-- C10: the transcript is recorded in the recent-transcript cache *before*
the dispatch subprocess runs, and the entry stays when dispatch fails (the
call returns failure but the cache is not rolled back); consequently an
identical transcript within the next 60 seconds is treated as a duplicate
and produces no dispatch. -/
theorem c10_cache_kept_on_dispatch_failure (cache : List (ℤ × String)) (t : String)
    (now : ℤ) (today : Nat)
    (hfresh : (pruneCache cache now).any (fun e => e.2 == stripStr t) = false) :
    (process_transcript_to_url t cache now today false).dispatched = true ∧
    (process_transcript_to_url t cache now today false).ok = false ∧
    (now, stripStr t) ∈ (process_transcript_to_url t cache now today false).cacheOut ∧
    (∀ now2 d2, now2 - now < 60 →
      (process_transcript_to_url t
        (process_transcript_to_url t cache now today false).cacheOut
        now2 today d2).dispatched = false) := by
  rw [ptu_fresh t cache now today false hfresh]
  refine ⟨rfl, rfl, ?_, ?_⟩
  · exact List.mem_append_right _ (by simp)
  · intro now2 d2 hlt
    have hdup : (pruneCache (pruneCache cache now ++ [(now, stripStr t)]) now2).any
        (fun e => e.2 == stripStr t) = true := by
      apply List.any_eq_true.mpr
      refine ⟨(now, stripStr t), ?_, by simp⟩
      rw [pruneCache, List.mem_filter]
      constructor
      · exact List.mem_append_right _ (by simp)
      · simpa using hlt
    rw [ptu_dup t _ now2 today d2 hdup]

/-- C10, witness: empty cache, dispatch failing at time 0, repeat at time 10. -/
theorem c10_cache_kept_witness :
    (pruneCache ([] : List (ℤ × String)) 0).any
      (fun e => e.2 == stripStr "buy milk") = false ∧
    ((process_transcript_to_url "buy milk" [] 0 0 false).dispatched = true ∧
     (process_transcript_to_url "buy milk" [] 0 0 false).ok = false ∧
     ((0 : ℤ), stripStr "buy milk") ∈
       (process_transcript_to_url "buy milk" [] 0 0 false).cacheOut ∧
     (∀ now2 d2, now2 - (0 : ℤ) < 60 →
       (process_transcript_to_url "buy milk"
         (process_transcript_to_url "buy milk" [] 0 0 false).cacheOut
         now2 0 d2).dispatched = false)) :=
  ⟨by decide, c10_cache_kept_on_dispatch_failure [] "buy milk" 0 0 (by decide)⟩

/-! ## Claim C5 -/

/-- C5: the claim says a contended invocation never enters the locked
critical section and performs no transcription or dispatch.  Lock
acquisition is indeed non-blocking (`LOCK_NB`), but Python's
`with FileLock(...)` ignores the boolean `__enter__` returns, so with the
lock held elsewhere the body still runs — it transcribes and dispatches —
and the `False` result comes from `__exit__` raising on a closed
descriptor, not from skipping the work.  The model exhibits this at a
concrete input. -/
theorem c5_lock_contention_bug :
    process_via_ssh true true true true true "buy milk" [] 0 0 true =
      { ranBody := true, dispatched := true, ok := false } ∧
    fileLockAcquire true = false := by
  constructor
  · decide
  · decide

/-! ## Claim C6 -/

/-- C6: when a cloud-synced recording has been moved into staging and any
later transfer or processing step fails, the handler moves the staged file
back to the drop location: afterwards the file is at the drop location, the
staging copy no longer exists, and on every path the recording is never
lost (it is always either at the drop location or in staging). -/
theorem c6_restore_on_failure (scpOk remoteVerifyOk processOk : Bool)
    (h : (scpOk && remoteVerifyOk && processOk) = false) :
    handle_icloud_file true true scpOk remoteVerifyOk processOk =
      { atDrop := true, atStaging := false } ∧
    (∀ c m s v p, ((handle_icloud_file c m s v p).atDrop ||
      (handle_icloud_file c m s v p).atStaging) = true) := by
  constructor
  · unfold handle_icloud_file
    simp [h]
  · decide

/-- C6, witness: transfer verification fails after a successful move. -/
theorem c6_restore_on_failure_witness :
    ((true && false && true) = false) ∧
    (handle_icloud_file true true true false true =
      { atDrop := true, atStaging := false } ∧
     (∀ c m s v p, ((handle_icloud_file c m s v p).atDrop ||
       (handle_icloud_file c m s v p).atStaging) = true)) :=
  ⟨by decide, c6_restore_on_failure true false true (by decide)⟩

/-! ## Claim C7 -/

/-- C7, counterexample.  The claim says every emitted estimate token is
normalized to the `<hours>h<minutes>m` shape; but the minutes-only pattern
formats as `"<m>m"` with no hour part: "30 minutes" yields "30m". -/
theorem c7_minutes_only_counterexample :
    parse_duration "30 minutes" = some "30m" ∧ isHMToken "30m" = false := by
  constructor
  · decide
  · decide

/-- C7, amended: the first matching pattern of the ordered list decides the
result, and every emitted estimate token is either `<hours>h<minutes>m`
(for the hour-bearing patterns, with 0 minutes when no minutes were given)
or `<minutes>m` (for the minutes-only patterns). -/
theorem c7_estimate_shape_amended (text : String) (r : String)
    (h : parse_duration text = some r) :
    (∃ hh mm : Nat, r = fmtHM hh mm) ∨ (∃ mm : Nat, r = fmtM mm) := by
  simp only [parse_duration] at h
  cases e1 : searchRe durBodyHM (lowerL text.data) with
  | some m =>
    rw [e1] at h
    left
    simp only [durFmtHM] at h
    cases e : capGet m.2.2 2 with
    | some mm =>
      rw [e] at h
      exact ⟨_, _, (Option.some.inj h).symm⟩
    | none =>
      rw [e] at h
      exact ⟨_, _, (Option.some.inj h).symm⟩
  | none =>
    rw [e1] at h
    cases e2 : searchRe durBodyM (lowerL text.data) with
    | some m =>
      rw [e2] at h
      exact Or.inr ⟨_, (Option.some.inj h).symm⟩
    | none =>
      rw [e2] at h
      cases e3 : searchRe durBodyH (lowerL text.data) with
      | some m =>
        rw [e3] at h
        exact Or.inl ⟨_, _, (Option.some.inj h).symm⟩
      | none =>
        rw [e3] at h
        cases e4 : searchRe durPat4 (lowerL text.data) with
        | some m =>
          rw [e4] at h
          left
          simp only [durFmtHM] at h
          cases e : capGet m.2.2 2 with
          | some mm =>
            rw [e] at h
            exact ⟨_, _, (Option.some.inj h).symm⟩
          | none =>
            rw [e] at h
            exact ⟨_, _, (Option.some.inj h).symm⟩
        | none =>
          rw [e4] at h
          rw [Option.map_eq_some'] at h
          obtain ⟨m, _, hr⟩ := h
          exact Or.inr ⟨_, hr.symm⟩

/-- C7, witness for the amended theorem: "2 hours" parses to "2h0m", which
has the hour-bearing shape. -/
theorem c7_estimate_shape_witness :
    parse_duration "2 hours" = some "2h0m" ∧
    ((∃ hh mm : Nat, "2h0m" = fmtHM hh mm) ∨ (∃ mm : Nat, "2h0m" = fmtM mm)) :=
  ⟨by decide, c7_estimate_shape_amended "2 hours" "2h0m" (by decide)⟩

/-! ## Claim C8 -/

theorem foldl_append_eq_flatten {α β : Type} (f : α → List β) :
    ∀ (ps : List α) (acc : List β),
      ps.foldl (fun a p => a ++ f p) acc = acc ++ (ps.map f).flatten := by
  intro ps
  induction ps with
  | nil => intro acc; simp
  | cons p t ih =>
    intro acc
    simp [List.foldl_cons, ih]

/-- C8, counterexample.  The claim says dependency captures are appended in
the order the matches appear in the utterance; but the loop iterates the
pattern list in declaration order and appends all of one pattern's matches
before the next pattern's.  In "needs approval and depends on budget" the
`needs` match starts at position 0 and the `depends on` match at
position 19, yet the `depends on` capture comes first; the two matches also
overlap. -/
theorem c8_dependency_order_counterexample :
    detect_dependencies "needs approval and depends on budget" =
      ["budget", "approval and depends on budget"] ∧
    (findAll (depPatterns.getD 3 .eps)
      (lowerL "needs approval and depends on budget".data)).map (fun m => m.1) = [0] ∧
    (findAll (depPatterns.getD 1 .eps)
      (lowerL "needs approval and depends on budget".data)).map (fun m => m.1) = [19] := by
  refine ⟨by decide, by decide, by decide⟩

/-- C8, amended: `detect_dependencies` returns all captures trimmed with
duplicates preserved, grouped by pattern in the pattern list's declaration
order (each pattern's matches in text order within the group), not globally
in text order. -/
theorem c8_dependency_collection_amended (text : String) :
    detect_dependencies text =
      (depPatterns.map (fun p =>
        (findAll p (lowerL text.data)).map
          (fun m => String.mk (stripWs (cap1 m))))).flatten := by
  unfold detect_dependencies
  rw [foldl_append_eq_flatten
    (fun p => (findAll p (lowerL text.data)).map (fun m => String.mk (stripWs (cap1 m))))]
  simp

/-! ## Claim C9 -/

/-- C9: whenever the grocery heuristic fires (at least two distinct words of
the utterance are grocery-lexicon entries), the tag string of
`parse_task_attributes` ends with the fixed location tag
"Location : Sainsbury", appended after the already-detected tags when there
are any (so no detected tag is replaced), and standing alone otherwise. -/
theorem c9_grocery_tag_appended (text : String) (h : is_grocery_list text = true) :
    ∃ pre : String,
      (parse_task_attributes text).tags = some (pre ++ "Location : Sainsbury") ∧
      (∀ tj, paTagsJoined text = some tj → tj ≠ "" → pre = tj ++ ",") ∧
      (paTagsJoined text = none → pre = "") := by
  simp only [parse_task_attributes]
  rw [if_pos h]
  cases e : paTagsJoined text with
  | none =>
    refine ⟨"", rfl, ?_, fun _ => rfl⟩
    intro tj htj
    cases htj
  | some tj =>
    by_cases htj : (tj == "") = true
    · have htj' : tj = "" := eq_of_beq htj
      refine ⟨"", ?_, ?_, ?_⟩
      · show (if (tj == "") = true then some "Location : Sainsbury"
            else some (tj ++ ",Location : Sainsbury")) =
          some ("" ++ "Location : Sainsbury")
        rw [if_pos htj]
        decide
      · intro tj2 htj2 hne
        exact absurd (htj' ▸ Option.some.inj htj2) (Ne.symm hne)
      · intro hnone
        cases hnone
    · refine ⟨tj ++ ",", ?_, ?_, ?_⟩
      · show (if (tj == "") = true then some "Location : Sainsbury"
            else some (tj ++ ",Location : Sainsbury")) =
          some (tj ++ "," ++ "Location : Sainsbury")
        rw [if_neg htj, String.append_assoc]
        have hlit : ("," : String) ++ "Location : Sainsbury" = ",Location : Sainsbury" := by
          decide
        rw [hlit]
      · intro tj2 htj2 hne
        rw [Option.some.inj htj2]
      · intro hnone
        cases hnone

/-- C9, witness: "buy milk and eggs" contains the two distinct grocery words
"milk" and "eggs", and its tag string is exactly the location tag. -/
theorem c9_grocery_tag_witness :
    is_grocery_list "buy milk and eggs" = true ∧
    ∃ pre : String,
      (parse_task_attributes "buy milk and eggs").tags =
        some (pre ++ "Location : Sainsbury") ∧
      (∀ tj, paTagsJoined "buy milk and eggs" = some tj → tj ≠ "" → pre = tj ++ ",") ∧
      (paTagsJoined "buy milk and eggs" = none → pre = "") :=
  ⟨by decide, c9_grocery_tag_appended "buy milk and eggs" (by decide)⟩
